import Mathlib

/-!
Verification of the avatar chat backend (`src/index.js`).

The development shallowly embeds the parts of the program that the
specification talks about:

* a JSON value type and a model of the runtime JSON parser
  (`parseJsonChars`), including the whitespace tolerance, string escapes,
  leading-zero rejection and duplicate-key handling of `JSON.parse`
  (numbers are modelled exactly as decimals `m * 10 ^ e`; IEEE rounding
  of extreme literals is outside every claim considered here);
* the Markdown code-fence stripping performed on the language-model
  response (`stripFences`), which mirrors the two first-occurrence
  regex replacements in the source;
* the `/chat` request handler (`chatHandler`) with its three branches
  (greeting, missing-credentials, normal), the per-fragment media
  pipeline with its catch-and-degrade policy, and the outer catch that
  produces the 500 response;
* the `execCommand` helper used for the ffmpeg and rhubarb invocations.

External collaborators (language model, speech synthesis, process
execution, file system) are oracles collected in a `World`; every
invocation of a collaborator is recorded in an effect trace so that
claims of the form "the language model is not invoked" are statable.
-/

/-- JSON values.  Numbers are represented exactly as `m * 10 ^ e`
(the claims never depend on IEEE-754 rounding of numeric literals).
Objects are insertion-ordered association lists with unique keys,
as produced by the runtime parser. -/
inductive Json where
  | null : Json
  | bool : Bool → Json
  | num : Int → Int → Json
  | str : String → Json
  | arr : List Json → Json
  | obj : List (String × Json) → Json

/-- Last-write-wins insertion used both by the JSON parser for duplicate
keys and by property assignment (`message.audio = ...`): an existing key
keeps its position and gets the new value, a new key is appended. -/
def setObjField : List (String × Json) → String → Json → List (String × Json)
  | [], k, v => [(k, v)]
  | (k', v') :: fs, k, v =>
    if k' = k then (k, v) :: fs else (k', v') :: setObjField fs k v

/-- Property lookup on an object field list. -/
def lookupField : List (String × Json) → String → Option Json
  | [], _ => none
  | (k', v') :: fs, k => if k' = k then some v' else lookupField fs k

/-- The JSON whitespace characters accepted by `JSON.parse`. -/
def isWs (c : Char) : Bool :=
  c = ' ' || c = '\t' || c = '\n' || c = '\r'

/-- Drop leading JSON whitespace. -/
def skipWs : List Char → List Char
  | [] => []
  | c :: cs => if isWs c then skipWs cs else c :: cs

/-- Accumulate decimal digits into a natural number. -/
def digitsToNat (acc : Nat) : List Char → Nat
  | [] => acc
  | c :: cs => digitsToNat (acc * 10 + (c.toNat - '0'.toNat)) cs

/-- Value of a hexadecimal digit, if any. -/
def hexDigitVal (c : Char) : Option Nat :=
  if c.isDigit then some (c.toNat - '0'.toNat)
  else if 'a' ≤ c ∧ c ≤ 'f' then some (c.toNat - 'a'.toNat + 10)
  else if 'A' ≤ c ∧ c ≤ 'F' then some (c.toNat - 'A'.toNat + 10)
  else none

/-- Body of a JSON string literal, after the opening quote: handles the
escape sequences of the JSON grammar and rejects raw control characters,
as `JSON.parse` does.  (`\uXXXX` is decoded to the scalar value; UTF-16
surrogate pairing is not modelled, no claim involves it.) -/
def parseStringBody : List Char → List Char → Option (String × List Char)
  | acc, '"' :: rest => some ((acc.reverse).asString, rest)
  | acc, '\\' :: esc :: rest =>
    (match esc, rest with
     | '"', r => parseStringBody ( '"' :: acc) r
     | '\\', r => parseStringBody ( '\\' :: acc) r
     | '/', r => parseStringBody ( '/' :: acc) r
     | 'b', r => parseStringBody (Char.ofNat 8 :: acc) r
     | 'f', r => parseStringBody (Char.ofNat 12 :: acc) r
     | 'n', r => parseStringBody ( '\n' :: acc) r
     | 'r', r => parseStringBody (Char.ofNat 13 :: acc) r
     | 't', r => parseStringBody ( '\t' :: acc) r
     | 'u', h1 :: h2 :: h3 :: h4 :: r =>
       (match hexDigitVal h1, hexDigitVal h2, hexDigitVal h3, hexDigitVal h4 with
        | some a, some b, some c, some d =>
          parseStringBody (Char.ofNat (((a * 16 + b) * 16 + c) * 16 + d) :: acc) r
        | _, _, _, _ => none)
     | _, _ => none)
  | acc, c :: rest => if c.toNat < 32 then none else parseStringBody (c :: acc) rest
  | _, [] => none

/-- Longest prefix of decimal digits. -/
def takeDigits : List Char → List Char × List Char
  | [] => ([], [])
  | c :: cs =>
    if c.isDigit then
      let (ds, r) := takeDigits cs
      (c :: ds, r)
    else ([], c :: cs)

/-- Build the numeric value from sign, integer digits, fraction digits
and exponent. -/
def mkNum (neg : Bool) (ids fds : List Char) (esign : Bool) (emag : Nat) : Json :=
  let m0 : Nat := digitsToNat (digitsToNat 0 ids) fds
  let m : Int := if neg then -(m0 : Int) else (m0 : Int)
  let e : Int := (if esign then -(emag : Int) else (emag : Int)) - (fds.length : Int)
  .num m e

/-- Optional exponent part of a JSON number. -/
def finishNumber (neg : Bool) (ids fds : List Char) : List Char → Option (Json × List Char)
  | c :: r =>
    if c = 'e' ∨ c = 'E' then
      let (esign, r1) := match r with
        | '+' :: r2 => (false, r2)
        | '-' :: r2 => (true, r2)
        | _ => (false, r)
      let (eds, r2) := takeDigits r1
      if eds = [] then none
      else some (mkNum neg ids fds esign (digitsToNat 0 eds), r2)
    else some (mkNum neg ids fds false 0, c :: r)
  | [] => some (mkNum neg ids fds false 0, [])

/-- JSON number literal: `-?(0|[1-9][0-9]*)(\.[0-9]+)?([eE][+-]?[0-9]+)?`,
with the leading-zero rejection of `JSON.parse`. -/
def parseNumber (cs : List Char) : Option (Json × List Char) :=
  let (neg, cs1) := match cs with
    | '-' :: r => (true, r)
    | _ => (false, cs)
  match cs1 with
  | c :: _ =>
    if c.isDigit = false then none
    else
      let (ids, cs2) := takeDigits cs1
      if 1 < ids.length ∧ ids.headD '0' = '0' then none
      else
        match cs2 with
        | '.' :: r =>
          let (fds, cs3) := takeDigits r
          if fds = [] then none else finishNumber neg ids fds cs3
        | _ => finishNumber neg ids [] cs2
  | [] => none

mutual

/-- Recursive-descent JSON value parser (fuel-indexed for termination). -/
def parseValue : Nat → List Char → Option (Json × List Char)
  | 0, _ => none
  | fuel + 1, cs =>
    match skipWs cs with
    | [] => none
    | c :: rest =>
      if c = '"' then
        match parseStringBody [] rest with
        | some (s, r) => some (.str s, r)
        | none => none
      else if c = '[' then
        match skipWs rest with
        | ']' :: r => some (.arr [], r)
        | rest2 => parseArrayRest fuel rest2 []
      else if c = '{' then
        match skipWs rest with
        | '}' :: r => some (.obj [], r)
        | rest2 => parseObjectRest fuel rest2 []
      else if c = 't' then
        if List.isPrefixOf "rue".toList rest then some (.bool true, rest.drop 3) else none
      else if c = 'f' then
        if List.isPrefixOf "alse".toList rest then some (.bool false, rest.drop 4) else none
      else if c = 'n' then
        if List.isPrefixOf "ull".toList rest then some (.null, rest.drop 3) else none
      else parseNumber (c :: rest)

/-- Items of a nonempty JSON array, accumulating in reverse. -/
def parseArrayRest : Nat → List Char → List Json → Option (Json × List Char)
  | 0, _, _ => none
  | fuel + 1, cs, acc =>
    match parseValue fuel cs with
    | none => none
    | some (v, r) =>
      match skipWs r with
      | ',' :: r2 => parseArrayRest fuel r2 (v :: acc)
      | ']' :: r2 => some (.arr (v :: acc).reverse, r2)
      | _ => none

/-- Members of a nonempty JSON object; duplicate keys behave as in
`JSON.parse` (last value wins, first position kept). -/
def parseObjectRest : Nat → List Char → List (String × Json) → Option (Json × List Char)
  | 0, _, _ => none
  | fuel + 1, cs, acc =>
    match skipWs cs with
    | '"' :: r =>
      match parseStringBody [] r with
      | none => none
      | some (k, r1) =>
        match skipWs r1 with
        | ':' :: r2 =>
          match parseValue fuel r2 with
          | none => none
          | some (v, r3) =>
            match skipWs r3 with
            | ',' :: r4 => parseObjectRest fuel r4 (setObjField acc k v)
            | '}' :: r4 => some (.obj (setObjField acc k v), r4)
            | _ => none
        | _ => none
    | _ => none

end

/-- Remove trailing JSON whitespace. -/
def trimRight (cs : List Char) : List Char :=
  (cs.reverse.dropWhile isWs).reverse

/-- Remove leading and trailing JSON whitespace (the tolerance of
`JSON.parse` around a top-level value). -/
def trimWs (cs : List Char) : List Char :=
  (trimRight cs).dropWhile isWs

/-- Model of `JSON.parse` on a character list: `none` means the runtime
parser throws. -/
def parseJsonChars (cs : List Char) : Option Json :=
  let t := trimWs cs
  match parseValue (2 * t.length + 2) t with
  | some (v, []) => some v
  | _ => none

/-- Model of `JSON.parse` on a string. -/
def jsonParseJs (s : String) : Option Json :=
  parseJsonChars s.toList

/-- The first fence tag removed from the model response:
the literal `markdown` fence opener followed by `json`. -/
def jsonTagL : List Char := "```json".toList

/-- The second fence tag removed from the model response. -/
def bticksL : List Char := "```".toList

/-- `s.replace(/TAG\n?/, "")` for a literal tag: remove the leftmost
occurrence of `tag`, together with one directly following newline if
present (the regex is greedy in its optional `\n?`), leaving the rest
unchanged; no occurrence means no change. -/
def stripTag (tag : List Char) : List Char → List Char
  | [] => []
  | c :: cs =>
    if List.isPrefixOf tag (c :: cs) then
      match (c :: cs).drop tag.length with
      | '\n' :: r => r
      | r => r
    else c :: stripTag tag cs

/-- Whether `tag` occurs as a contiguous substring. -/
def containsTag (tag : List Char) : List Char → Bool
  | [] => false
  | c :: cs => List.isPrefixOf tag (c :: cs) || containsTag tag cs

/-- The code-fence stripping applied to the raw language-model response:
`responseText.replace(/```json\n?/, "").replace(/```\n?/, "")`. -/
def stripFences (s : String) : List Char :=
  stripTag bticksL (stripTag jsonTagL s.toList)

/-- JavaScript property read `o[k]`: `none` is `undefined` (missing key
or non-object receiver other than `null`); reading a property of `null`
throws a `TypeError`, modelled as the error case. -/
def jsGetField (j : Json) (k : String) : Except String (Option Json) :=
  match j with
  | .null => .error ("TypeError: Cannot read properties of null (reading " ++ k ++ ")")
  | .obj fs => .ok (lookupField fs k)
  | _ => .ok none

/-- JavaScript property write `o.k = v` on an object; the handler only
assigns to values obtained from successful object field reads, so the
non-object case never fires in reachable code. -/
def jsSetField (j : Json) (k : String) (v : Json) : Json :=
  match j with
  | .obj fs => .obj (setObjField fs k v)
  | other => other

/-- JavaScript truthiness of a JSON value. -/
def jsTruthy : Json → Bool
  | .null => false
  | .bool b => b
  | .num m _ => m != 0
  | .str s => s != ""
  | .arr _ => true
  | .obj _ => true

/-- Truthiness of a possibly-`undefined` value (`!userMessage`). -/
def jsTruthyOpt : Option Json → Bool
  | none => false
  | some v => jsTruthy v

/-- The two environment-derived credentials read by the handler. -/
structure Env where
  elevenLabsApiKey : Option String
  geminiApiKey : Option String

/-- `!elevenLabsApiKey`: the ElevenLabs key is absent or empty. -/
def elevenFalsy (env : Env) : Bool :=
  match env.elevenLabsApiKey with
  | none => true
  | some s => s == ""

/-- The credential check of the handler:
`!elevenLabsApiKey || process.env.GEMINI_API_KEY === "-"`.  Note the
strict equality: an absent Gemini key does not satisfy it. -/
def misconfigured (env : Env) : Bool :=
  elevenFalsy env || env.geminiApiKey == some "-"

/-- Completion state of one external process run. -/
structure ProcResult where
  exitCode : Nat
  stdout : String
  stderr : String

/-- The error object `child_process.exec` passes to its callback; its
message carries the error output of the process. -/
structure ExecError where
  code : Nat
  message : String

/-- `exec` invokes the callback with a non-null error exactly when the
process did not exit with status zero; the error message carries the
error output. -/
def execErrorOf (cmd : String) (r : ProcResult) : Option ExecError :=
  if r.exitCode = 0 then none
  else some ⟨r.exitCode, "Command failed: " ++ cmd ++ "\n" ++ r.stderr⟩

/-- One settlement attempt on the promise created by `execCommand`. -/
inductive Settle where
  | rejected (e : ExecError)
  | resolved (s : String)

/-- The callback body `if (error) reject(error); resolve(stdout);`
attempts these settlements in order (there is no `else`: after a
rejection the `resolve` call is still reached but has no effect,
because a promise keeps its first settlement). -/
def callbackSettles (cmd : String) (r : ProcResult) : List Settle :=
  (match execErrorOf cmd r with
   | some e => [Settle.rejected e]
   | none => []) ++ [Settle.resolved r.stdout]

/-- `execCommand(command)`: the promise takes the first settlement
produced by the `exec` callback. -/
def execCommand (cmd : String) (r : ProcResult) : Except ExecError String :=
  match (callbackSettles cmd r).head? with
  | some (.rejected e) => .error e
  | some (.resolved s) => .ok s
  | none => .error ⟨1, "unsettled"⟩

/-- Observable invocations of external collaborators during one request. -/
inductive Effect where
  | llmCall : Effect
  | ttsCall (fileName text : String) : Effect
  | execCmd (cmd : String) : Effect
  | fileRead (path : String) : Effect
deriving DecidableEq, Repr

/-- Oracles for the external collaborators of one request: the
language-model text (or thrown error), the speech-synthesis outcome per
(file, text), the process results per command line, and the file system. -/
structure World where
  llm : Except String String
  tts : String → String → Except String Unit
  proc : String → ProcResult
  readBin : String → Except String (List Nat)
  readText : String → Except String String

/-- HTTP responses the handler can produce: `res.send(body)` (status
200) or `res.status(500).send(body)`. -/
inductive HttpResponse where
  | ok (body : Json)
  | serverError (body : Json)

/-- The base64 alphabet. -/
def b64c (n : Nat) : Char :=
  "ABCDEFGHIJKLMNOPQRSTUVWXYZabcdefghijklmnopqrstuvwxyz0123456789+/".toList.getD n 'A'

/-- Standard base64 of a byte sequence (`Buffer.toString("base64")`). -/
def base64Encode : List Nat → List Char
  | [] => []
  | [b1] =>
    [b64c (b1 % 256 / 4), b64c (b1 % 4 * 16), '=', '=']
  | [b1, b2] =>
    [b64c (b1 % 256 / 4), b64c (b1 % 4 * 16 + b2 % 256 / 16), b64c (b2 % 16 * 4), '=']
  | b1 :: b2 :: b3 :: rest =>
    b64c (b1 % 256 / 4) :: b64c (b1 % 4 * 16 + b2 % 256 / 16) ::
    b64c (b2 % 16 * 4 + b3 % 256 / 64) :: b64c (b3 % 64) :: base64Encode rest

/-- Base64 of a byte list, as a string. -/
def base64Str (bs : List Nat) : String :=
  (base64Encode bs).asString

/-- `audioFileToBase64`: read a file and base64-encode its bytes. -/
def audioFileToBase64 (w : World) (file : String) : Except String String :=
  match w.readBin file with
  | .error e => .error e
  | .ok bs => .ok (base64Str bs)

/-- Error message of a `JSON.parse` throw (its exact text is irrelevant
to every claim). -/
def jsonParseErrorMsg : String := "Unexpected token in JSON"

/-- `readJsonTranscript`: read a file as UTF-8 and `JSON.parse` it. -/
def readJsonTranscript (w : World) (file : String) : Except String Json :=
  match w.readText file with
  | .error e => .error e
  | .ok t =>
    match jsonParseJs t with
    | some j => .ok j
    | none => .error jsonParseErrorMsg

/-- The fixed ElevenLabs voice identifier. -/
def voiceID : String := "kgG7dCoKCfLehAPWkJOE"

/-- Per-fragment file names, keyed by the fragment index. -/
def mp3Path (i : Nat) : String := "audios/message_" ++ toString i ++ ".mp3"

/-- WAV file produced by the transcode step. -/
def wavPath (i : Nat) : String := "audios/message_" ++ toString i ++ ".wav"

/-- Viseme JSON file produced by rhubarb. -/
def jsonPath (i : Nat) : String := "audios/message_" ++ toString i ++ ".json"

/-- The ffmpeg command line of the transcode step. -/
def ffmpegCmd (i : Nat) : String :=
  "ffmpeg -y -i " ++ mp3Path i ++ " " ++ wavPath i

/-- The rhubarb command line of the viseme-extraction step. -/
def rhubarbCmd (i : Nat) : String :=
  "./bin/rhubarb -f json -o " ++ jsonPath i ++ " " ++ wavPath i ++ " -r phonetic"

/-- A computation that either throws (carrying the effects performed so
far) or returns a value together with its effect trace. -/
abbrev TraceRes (α : Type) := Except (String × List Effect) (α × List Effect)

/-- `lipSyncMessage(messageIndex)`: ffmpeg transcode, then rhubarb; its
internal try/catch only logs and rethrows, so errors propagate. -/
def lipSyncMessage (w : World) (i : Nat) : TraceRes Unit :=
  match execCommand (ffmpegCmd i) (w.proc (ffmpegCmd i)) with
  | .error e => .error (e.message, [.execCmd (ffmpegCmd i)])
  | .ok _ =>
    match execCommand (rhubarbCmd i) (w.proc (rhubarbCmd i)) with
    | .error e => .error (e.message, [.execCmd (ffmpegCmd i), .execCmd (rhubarbCmd i)])
    | .ok _ => .ok ((), [.execCmd (ffmpegCmd i), .execCmd (rhubarbCmd i)])

/-- The media steps of the `try` block of the fragment loop, once the
text is known to be a string: synthesis, transcode + viseme extraction,
audio read-back and encode, transcript read and parse.  Any throw is
swallowed by the per-fragment catch, keeping the fragment with whatever
mutations it received so far: in particular `message.audio` is assigned
before `readJsonTranscript` runs, so a throw in that last step keeps a
fragment that carries `audio` but no `lipsync`. -/
def runPipeline (w : World) (i : Nat) (message : Json) (t : String) : Json × List Effect :=
  let trTts := [Effect.ttsCall (mp3Path i) t]
  match w.tts (mp3Path i) t with
  | .error _ => (message, trTts)
  | .ok _ =>
    match lipSyncMessage w i with
    | .error (_, tr) => (message, trTts ++ tr)
    | .ok (_, tr1) =>
      let tr2 := trTts ++ tr1 ++ [Effect.fileRead (mp3Path i)]
      match audioFileToBase64 w (mp3Path i) with
      | .error _ => (message, tr2)
      | .ok b64 =>
        let m1 := jsSetField message "audio" (.str b64)
        let tr3 := tr2 ++ [Effect.fileRead (jsonPath i)]
        match readJsonTranscript w (jsonPath i) with
        | .error _ => (m1, tr3)
        | .ok l => (jsSetField m1 "lipsync" l, tr3)

/-- The per-fragment body of the loop in the `/chat` handler.  Reading
`message.text` happens before the `try` block, so it throws to the outer
handler when the fragment is `null`.  Inside the `try`, the first
statement calls `textInput.substring`, which throws unless the text is a
string (that throw is caught and leaves the fragment unchanged);
otherwise the media steps of `runPipeline` run under the same catch. -/
def processMessage (w : World) (i : Nat) (message : Json) : Except String (Json × List Effect) :=
  match jsGetField message "text" with
  | .error e => .error e
  | .ok textInput =>
    match textInput with
    | some (.str t) => .ok (runPipeline w i message t)
    | _ => .ok (message, [])

/-- The fragment loop `for (let i = 0; i < messages.length; i++)`,
strictly sequential and in index order. -/
def processLoop (w : World) (i : Nat) : List Json → TraceRes (List Json)
  | [] => .ok ([], [])
  | m :: rest =>
    match processMessage w i m with
    | .error e => .error (e, [])
    | .ok (m', tr) =>
      match processLoop w (i + 1) rest with
      | .error (e, tr') => .error (e, tr ++ tr')
      | .ok (rest', tr') => .ok (m' :: rest', tr ++ tr')

/-- `if (messages.messages) messages = messages.messages;`
(a truthy `messages` property unwraps the envelope; reading the
property of a `null` parse result throws). -/
def unwrapMessages (j : Json) : Except String Json :=
  match jsGetField j "messages" with
  | .error e => .error e
  | .ok none => .ok j
  | .ok (some v) => .ok (if jsTruthy v then v else j)

/-- First fragment of the greeting (no-message) response. -/
def greetFrag0 (a : String) (l : Json) : Json :=
  .obj [("text", .str "Hey dear... How was your day?"),
        ("audio", .str a), ("lipsync", l),
        ("facialExpression", .str "smile"), ("animation", .str "Talking_1")]

/-- Second fragment of the greeting response. -/
def greetFrag1 (a : String) (l : Json) : Json :=
  .obj [("text", .str "I missed you so much... Please don\x27t go for so long!"),
        ("audio", .str a), ("lipsync", l),
        ("facialExpression", .str "sad"), ("animation", .str "Crying")]

/-- First fragment of the missing-credentials response. -/
def apiFrag0 (a : String) (l : Json) : Json :=
  .obj [("text", .str "Please my dear, don\x27t forget to add your API keys!"),
        ("audio", .str a), ("lipsync", l),
        ("facialExpression", .str "angry"), ("animation", .str "Angry")]

/-- Second fragment of the missing-credentials response. -/
def apiFrag1 (a : String) (l : Json) : Json :=
  .obj [("text", .str "You don\x27t want to ruin this with a crazy Gemini and ElevenLabs bill, right?"),
        ("audio", .str a), ("lipsync", l),
        ("facialExpression", .str "smile"), ("animation", .str "Laughing")]

/-- The greeting branch: both fragments are built from the pre-baked
`intro_0`/`intro_1` assets, in source order (wav then transcript, first
fragment then second); a failing asset read or parse throws to the outer
handler. -/
def greetingResponse (w : World) : TraceRes Json :=
  match audioFileToBase64 w "audios/intro_0.wav" with
  | .error e => .error (e, [.fileRead "audios/intro_0.wav"])
  | .ok a0 =>
    match readJsonTranscript w "audios/intro_0.json" with
    | .error e => .error (e, [.fileRead "audios/intro_0.wav", .fileRead "audios/intro_0.json"])
    | .ok l0 =>
      match audioFileToBase64 w "audios/intro_1.wav" with
      | .error e => .error (e, [.fileRead "audios/intro_0.wav", .fileRead "audios/intro_0.json",
                                .fileRead "audios/intro_1.wav"])
      | .ok a1 =>
        match readJsonTranscript w "audios/intro_1.json" with
        | .error e => .error (e, [.fileRead "audios/intro_0.wav", .fileRead "audios/intro_0.json",
                                  .fileRead "audios/intro_1.wav", .fileRead "audios/intro_1.json"])
        | .ok l1 =>
          .ok (.obj [("messages", .arr [greetFrag0 a0 l0, greetFrag1 a1 l1])],
               [.fileRead "audios/intro_0.wav", .fileRead "audios/intro_0.json",
                .fileRead "audios/intro_1.wav", .fileRead "audios/intro_1.json"])

/-- The missing-credentials branch, analogous to the greeting branch but
sourced from the `api_0`/`api_1` assets. -/
def apiKeysResponse (w : World) : TraceRes Json :=
  match audioFileToBase64 w "audios/api_0.wav" with
  | .error e => .error (e, [.fileRead "audios/api_0.wav"])
  | .ok a0 =>
    match readJsonTranscript w "audios/api_0.json" with
    | .error e => .error (e, [.fileRead "audios/api_0.wav", .fileRead "audios/api_0.json"])
    | .ok l0 =>
      match audioFileToBase64 w "audios/api_1.wav" with
      | .error e => .error (e, [.fileRead "audios/api_0.wav", .fileRead "audios/api_0.json",
                                .fileRead "audios/api_1.wav"])
      | .ok a1 =>
        match readJsonTranscript w "audios/api_1.json" with
        | .error e => .error (e, [.fileRead "audios/api_0.wav", .fileRead "audios/api_0.json",
                                  .fileRead "audios/api_1.wav", .fileRead "audios/api_1.json"])
        | .ok l1 =>
          .ok (.obj [("messages", .arr [apiFrag0 a0 l0, apiFrag1 a1 l1])],
               [.fileRead "audios/api_0.wav", .fileRead "audios/api_0.json",
                .fileRead "audios/api_1.wav", .fileRead "audios/api_1.json"])

/-- The model-driven branch: call the language model, strip fences,
`JSON.parse` the result (a parse failure throws to the outer handler),
unwrap a truthy `messages` property, then run the media pipeline over
the fragments in order.  A non-array value skips the loop (its `length`
coerces to no iterations for the shapes a `JSON.parse` result can take
here) and is sent back unchanged inside the envelope. -/
def normalResponse (w : World) : TraceRes Json :=
  match w.llm with
  | .error e => .error (e, [.llmCall])
  | .ok responseText =>
    match parseJsonChars (stripFences responseText) with
    | none => .error (jsonParseErrorMsg, [.llmCall])
    | some parsed =>
      match unwrapMessages parsed with
      | .error e => .error (e, [.llmCall])
      | .ok messages =>
        match messages with
        | .arr xs =>
          match processLoop w 0 xs with
          | .error (e, tr) => .error (e, Effect.llmCall :: tr)
          | .ok (ys, tr) => .ok (.obj [("messages", .arr ys)], Effect.llmCall :: tr)
        | other => .ok (.obj [("messages", other)], [.llmCall])

/-- The body of the outer `try` of the `/chat` handler: greeting branch
on a falsy `message`, missing-credentials branch next, model-driven
branch otherwise. -/
def chatTry (env : Env) (w : World) (body : Json) : TraceRes Json :=
  match jsGetField body "message" with
  | .error e => .error (e, [])
  | .ok userMessage =>
    if jsTruthyOpt userMessage = false then greetingResponse w
    else if misconfigured env then apiKeysResponse w
    else normalResponse w

/-- The `/chat` handler: a thrown error anywhere in the body is caught
by the outer catch and turned into a status-500 response whose body
carries `error` and `details` fields. -/
def chatHandler (env : Env) (w : World) (body : Json) : HttpResponse × List Effect :=
  match chatTry env w body with
  | .ok (b, tr) => (.ok b, tr)
  | .error (msg, tr) =>
    (.serverError (.obj [("error", .str "Failed to process message"),
                         ("details", .str msg)]), tr)

/-- The fragment list produced by the branch the handler selects, before
any media-pipeline processing: the fixed pairs for the greeting and
missing-credentials branches (when their assets load), the unwrapped
parsed model response for the normal branch (when it is an array). -/
def branchList (env : Env) (w : World) (body : Json) : Option (List Json) :=
  match jsGetField body "message" with
  | .error _ => none
  | .ok userMessage =>
    if jsTruthyOpt userMessage = false then
      match audioFileToBase64 w "audios/intro_0.wav", readJsonTranscript w "audios/intro_0.json",
            audioFileToBase64 w "audios/intro_1.wav", readJsonTranscript w "audios/intro_1.json" with
      | .ok a0, .ok l0, .ok a1, .ok l1 => some [greetFrag0 a0 l0, greetFrag1 a1 l1]
      | _, _, _, _ => none
    else if misconfigured env then
      match audioFileToBase64 w "audios/api_0.wav", readJsonTranscript w "audios/api_0.json",
            audioFileToBase64 w "audios/api_1.wav", readJsonTranscript w "audios/api_1.json" with
      | .ok a0, .ok l0, .ok a1, .ok l1 => some [apiFrag0 a0 l0, apiFrag1 a1 l1]
      | _, _, _, _ => none
    else
      match w.llm with
      | .error _ => none
      | .ok t =>
        match parseJsonChars (stripFences t) with
        | none => none
        | some j =>
          match unwrapMessages j with
          | .ok (.arr xs) => some xs
          | _ => none

/-- A world in which every collaborator succeeds: the model returns an
empty fragment array, processes exit 0, audio files hold the bytes of
"ABC", transcripts hold an empty mouth-cue document. -/
def okWorld : World where
  llm := .ok "[]"
  tts := fun _ _ => .ok ()
  proc := fun _ => ⟨0, "", ""⟩
  readBin := fun _ => .ok [65, 66, 67]
  readText := fun _ => .ok "\x7b\"mouthCues\": []\x7d"

/-- An environment with both credentials present and non-placeholder. -/
def okEnv : Env := ⟨some "elkey", some "gmkey"⟩

/-- A request body with a non-empty message. -/
def msgBody : Json := .obj [("message", .str "hi")]

/-- A world whose model returns one well-formed fragment and whose
media pipeline succeeds up to and including the audio read-back, but
whose viseme transcript file holds invalid JSON, so that
`readJsonTranscript` throws after `message.audio` was assigned. -/
def c1World : World :=
  { okWorld with
    llm := .ok "[\x7b\"text\":\"hi\",\"facialExpression\":\"smile\",\"animation\":\"Idle\"\x7d]",
    readText := fun f =>
      if f = "audios/message_0.json" then .ok "oops"
      else .ok "\x7b\"mouthCues\": []\x7d" }

/-- Whether an external call threw. -/
def isThrown {α : Type} : Except String α → Bool
  | .error _ => true
  | .ok _ => false

/-- The media pipeline of fragment `i` with text `t` raises at some
step under world `w`: synthesis, transcode, viseme extraction, audio
read-back, or transcript read/parse. -/
def pipelineFails (w : World) (i : Nat) (t : String) : Bool :=
  isThrown (w.tts (mp3Path i) t) ||
  (w.proc (ffmpegCmd i)).exitCode != 0 ||
  (w.proc (rhubarbCmd i)).exitCode != 0 ||
  isThrown (w.readBin (mp3Path i)) ||
  isThrown (readJsonTranscript w (jsonPath i))

/-! ### Helper lemmas about prefixes, tag stripping and trimming -/

theorem isPrefixOf_append_self (t r : List Char) : List.isPrefixOf t (t ++ r) = true := by
  induction t with
  | nil => cases r <;> rfl
  | cons a t ih => simp [List.isPrefixOf, ih]

theorem isPrefixOf_char_trans {t1 t2 l : List Char}
    (h1 : List.isPrefixOf t1 t2 = true) (h2 : List.isPrefixOf t2 l = true) :
    List.isPrefixOf t1 l = true := by
  induction t1 generalizing t2 l with
  | nil => cases l <;> rfl
  | cons a t ih =>
    cases t2 with
    | nil => simp [List.isPrefixOf] at h1
    | cons b t2' =>
      cases l with
      | nil => simp [List.isPrefixOf] at h2
      | cons c l' =>
        simp only [List.isPrefixOf, Bool.and_eq_true, beq_iff_eq] at h1 h2 ⊢
        exact ⟨h1.1.trans h2.1, ih h1.2 h2.2⟩

theorem containsTag_cons_false {tag : List Char} {c : Char} {cs : List Char}
    (h : containsTag tag (c :: cs) = false) :
    List.isPrefixOf tag (c :: cs) = false ∧ containsTag tag cs = false := by
  simpa [containsTag, Bool.or_eq_false_iff] using h

theorem containsTag_of_isPrefixOf {t1 t2 : List Char}
    (hp : List.isPrefixOf t1 t2 = true) :
    ∀ s, containsTag t2 s = true → containsTag t1 s = true := by
  intro s
  induction s with
  | nil => simp [containsTag]
  | cons c cs ih =>
    simp only [containsTag, Bool.or_eq_true]
    rintro (h | h)
    · exact Or.inl (isPrefixOf_char_trans hp h)
    · exact Or.inr (ih h)

theorem stripTag_of_not_contains (tag : List Char) :
    ∀ s, containsTag tag s = false → stripTag tag s = s := by
  intro s
  induction s with
  | nil => intro _; rfl
  | cons c cs ih =>
    intro h
    obtain ⟨h1, h2⟩ := containsTag_cons_false h
    simp [stripTag, h1, ih h2]

theorem stripTag_tag_newline (tag r : List Char) (h : tag ≠ []) :
    stripTag tag (tag ++ '\n' :: r) = r := by
  cases tag with
  | nil => exact absurd rfl h
  | cons a t =>
    show stripTag (a :: t) ((a :: t) ++ '\n' :: r) = r
    rw [List.cons_append]
    unfold stripTag
    rw [← List.cons_append, isPrefixOf_append_self]
    simp only [if_true, List.drop_left]

theorem isPrefixOf_of_append_nl {tag : List Char} (hnl : '\n' ∉ tag) :
    ∀ {s ext : List Char}, List.isPrefixOf tag (s ++ '\n' :: ext) = true →
      List.isPrefixOf tag s = true := by
  induction tag with
  | nil => intro s ext _; cases s <;> rfl
  | cons a t ih =>
    intro s ext h
    cases s with
    | nil =>
      simp only [List.nil_append, List.isPrefixOf, Bool.and_eq_true, beq_iff_eq] at h
      exact absurd (h.1 ▸ List.mem_cons_self a t) hnl
    | cons b s' =>
      simp only [List.cons_append, List.isPrefixOf, Bool.and_eq_true] at h ⊢
      exact ⟨h.1, ih (fun hm => hnl (List.mem_cons_of_mem a hm)) h.2⟩

theorem stripTag_tail (tag : List Char) (hne : tag ≠ []) (hnl : '\n' ∉ tag) :
    ∀ s, containsTag tag s = false →
      stripTag tag (s ++ '\n' :: tag) = s ++ ['\n'] := by
  intro s
  induction s with
  | nil =>
    intro _
    have hpre : List.isPrefixOf tag ('\n' :: tag) = false := by
      cases htag : List.isPrefixOf tag ('\n' :: tag) with
      | false => rfl
      | true =>
        cases tag with
        | nil => exact absurd rfl hne
        | cons a t =>
          simp only [List.isPrefixOf, Bool.and_eq_true, beq_iff_eq] at htag
          exact absurd (htag.1 ▸ List.mem_cons_self a t) hnl
    have hself : stripTag tag tag = [] := by
      cases tag with
      | nil => rfl
      | cons a t =>
        unfold stripTag
        have hp : List.isPrefixOf (a :: t) (a :: t) = true := by
          have h0 := isPrefixOf_append_self (a :: t) []
          rw [List.append_nil] at h0
          exact h0
        rw [hp]
        simp only [if_true, List.drop_length]
    simp only [List.nil_append]
    unfold stripTag
    rw [hpre]
    simp [hself]
  | cons c s' ih =>
    intro h
    obtain ⟨h1, h2⟩ := containsTag_cons_false h
    have hpre : List.isPrefixOf tag ((c :: s') ++ '\n' :: tag) = false := by
      cases htag : List.isPrefixOf tag ((c :: s') ++ '\n' :: tag) with
      | false => rfl
      | true => exact absurd (isPrefixOf_of_append_nl hnl htag) (by simp [h1])
    rw [List.cons_append]
    unfold stripTag
    rw [← List.cons_append, hpre]
    simp only [Bool.false_eq_true, if_false]
    rw [List.cons_append, ih h2]

theorem trimRight_snoc_ws (cs : List Char) {c : Char} (hc : isWs c = true) :
    trimRight (cs ++ [c]) = trimRight cs := by
  unfold trimRight
  rw [List.reverse_append]
  simp only [List.reverse_cons, List.reverse_nil, List.nil_append, List.singleton_append]
  rw [List.dropWhile_cons]
  simp [hc]

theorem parseJsonChars_snoc_newline (cs : List Char) :
    parseJsonChars (cs ++ ['\n']) = parseJsonChars cs := by
  have h : trimWs (cs ++ ['\n']) = trimWs cs := by
    unfold trimWs
    rw [trimRight_snoc_ws cs (by rfl)]
  unfold parseJsonChars
  rw [h]

theorem stripFences_clean (s : String) (h : containsTag bticksL s.toList = false) :
    stripFences s = s.toList := by
  unfold stripFences
  have hj : containsTag jsonTagL s.toList = false := by
    cases hc : containsTag jsonTagL s.toList with
    | false => rfl
    | true =>
      have hb := @containsTag_of_isPrefixOf bticksL jsonTagL (by decide) s.toList hc
      rw [hb] at h
      cases h
  rw [stripTag_of_not_contains _ _ hj, stripTag_of_not_contains _ _ h]

theorem stripFences_wrapped (s : String) (h : containsTag bticksL s.toList = false) :
    stripFences ("```json\n" ++ s ++ "\n```") = s.toList ++ ['\n'] := by
  unfold stripFences
  have hx : ∀ (a b : String), (a ++ b).toList = a.toList ++ b.toList := by
    intro a b
    simp [String.toList, String.data_append]
  have htl : ("```json\n" ++ s ++ "\n```").toList
      = jsonTagL ++ '\n' :: (s.toList ++ '\n' :: bticksL) := by
    rw [hx, hx]
    rw [show ("```json\n".toList : List Char) = jsonTagL ++ ['\n'] from by decide,
        show ("\n```".toList : List Char) = '\n' :: bticksL from by decide]
    simp [List.append_assoc]
  rw [htl, stripTag_tag_newline jsonTagL _ (by decide)]
  exact stripTag_tail bticksL (by decide) (by decide) s.toList h

/-- C4 (amended): for every language-model response `s` that is valid
JSON and does not contain the substring of three backticks, stripping
fences and parsing yields the same value whether or not `s` is wrapped
in Markdown code fences.  (The restriction is forced by
`c4_counterexample`: the second `replace` removes the first three-

backtick run anywhere in the text, so a backtick run inside a JSON
string breaks the round-trip.) -/
theorem c4_amended_fence_roundtrip (s : String) (v : Json)
    (hclean : containsTag bticksL s.toList = false)
    (hv : jsonParseJs s = some v) :
    parseJsonChars (stripFences ("```json\n" ++ s ++ "\n```")) = some v ∧
    parseJsonChars (stripFences s) = some v := by
  constructor
  · rw [stripFences_wrapped s hclean, parseJsonChars_snoc_newline]
    exact hv
  · rw [stripFences_clean s hclean]
    exact hv

/-- Witness for `c4_amended_fence_roundtrip` at `s = "[1, 2]"`. -/
theorem c4_amended_fence_roundtrip_witness :
    parseJsonChars (stripFences ("```json\n" ++ "[1, 2]" ++ "\n```"))
      = some (.arr [.num 1 0, .num 2 0]) ∧
    parseJsonChars (stripFences "[1, 2]") = some (.arr [.num 1 0, .num 2 0]) :=
  c4_amended_fence_roundtrip "[1, 2]" (.arr [.num 1 0, .num 2 0]) (by decide) rfl

/-- C4 counterexample: the claim quantifies over every valid JSON model
response, but for the valid JSON string `"a```b"` (a JSON string
containing three backticks) the fence-stripping-then-parse step throws
on the fenced form while it produces `"ab"` on the unfenced form — the
first-occurrence `replace(/```\n?/, ...)` hits the backticks inside the
string body of the fenced form, and hits (and alters) the payload in
the unfenced form, so the two parses are not identical. -/
theorem c4_counterexample :
    jsonParseJs "\"a```b\"" = some (.str "a```b") ∧
    parseJsonChars (stripFences ("```json\n" ++ "\"a```b\"" ++ "\n```")) = none ∧
    parseJsonChars (stripFences "\"a```b\"") = some (.str "ab") ∧
    parseJsonChars (stripFences ("```json\n" ++ "\"a```b\"" ++ "\n```"))
      ≠ parseJsonChars (stripFences "\"a```b\"") :=
  ⟨rfl, rfl, rfl, by
    intro h
    rw [show parseJsonChars (stripFences ("```json\n" ++ "\"a```b\"" ++ "\n```")) = none from rfl,
        show parseJsonChars (stripFences "\"a```b\"") = some (.str "ab") from rfl] at h
    exact Option.noConfusion h⟩

/-- C8: `execCommand` resolves, with the standard output of the
process, exactly when the process exits with status zero; otherwise its
promise is rejected with the `exec` error, whose message carries the
error output of the process.  (The callback lacks an `else`, but the
`resolve` after `reject` is a no-op because a promise keeps its first
settlement, as modelled by `callbackSettles`.) -/
theorem c8_execCommand_contract (cmd : String) (r : ProcResult) :
    (execCommand cmd r = .ok r.stdout ↔ r.exitCode = 0) ∧
    (r.exitCode ≠ 0 →
      execCommand cmd r =
        .error ⟨r.exitCode, "Command failed: " ++ cmd ++ "\n" ++ r.stderr⟩) := by
  refine ⟨⟨fun h => ?_, fun hz => ?_⟩, fun hz => ?_⟩
  · by_cases hz : r.exitCode = 0
    · exact hz
    · simp [execCommand, callbackSettles, execErrorOf, hz] at h
  · simp [execCommand, callbackSettles, execErrorOf, hz]
  · simp [execCommand, callbackSettles, execErrorOf, hz]

/-- Witness for `c8_execCommand_contract`: a failing run carries the
error output, a succeeding run resolves with the standard output. -/
theorem c8_execCommand_contract_witness :
    execCommand "ffmpeg" ⟨2, "out", "boom"⟩ = .error ⟨2, "Command failed: ffmpeg\nboom"⟩ ∧
    execCommand "ffmpeg" ⟨0, "out", "boom"⟩ = .ok "out" :=
  ⟨(c8_execCommand_contract "ffmpeg" ⟨2, "out", "boom"⟩).2 (by decide),
   (c8_execCommand_contract "ffmpeg" ⟨0, "out", "boom"⟩).1.mpr rfl⟩

/-- C1 counterexample: in `c1World` every media step of fragment 0
succeeds except the final transcript read/parse (`readJsonTranscript`
throws on the invalid JSON in `audios/message_0.json`), which the
per-fragment catch swallows — but `message.audio` was assigned before
that step, so the emitted fragment carries `audio` without `lipsync`:
exactly one of the two is present, contradicting the claim. -/
theorem c1_counterexample :
    chatHandler okEnv c1World msgBody =
      (.ok (.obj [("messages", .arr [.obj [("text", .str "hi"),
        ("facialExpression", .str "smile"), ("animation", .str "Idle"),
        ("audio", .str "QUJD")]])]),
       [Effect.llmCall, Effect.ttsCall "audios/message_0.mp3" "hi",
        Effect.execCmd (ffmpegCmd 0), Effect.execCmd (rhubarbCmd 0),
        Effect.fileRead "audios/message_0.mp3", Effect.fileRead "audios/message_0.json"]) ∧
    jsGetField (.obj [("text", .str "hi"), ("facialExpression", .str "smile"),
      ("animation", .str "Idle"), ("audio", .str "QUJD")]) "audio"
      = .ok (some (.str "QUJD")) ∧
    jsGetField (.obj [("text", .str "hi"), ("facialExpression", .str "smile"),
      ("animation", .str "Idle"), ("audio", .str "QUJD")]) "lipsync" = .ok none :=
  ⟨rfl, rfl, rfl⟩

/-- C2 counterexample: with the ElevenLabs key present and the Gemini
key entirely absent (so not the placeholder string), a request with a
non-empty message does not take the missing-credentials branch: the
strict comparison `process.env.GEMINI_API_KEY === "-"` is false for an
absent key, so the language model is invoked (the trace records the
call) and the response is the model-driven one, not the fixed
`api_0`/`api_1` pair. -/
theorem c2_counterexample :
    chatHandler ⟨some "elkey", none⟩ { okWorld with llm := .ok "[]" } msgBody =
      (.ok (.obj [("messages", .arr [])]), [Effect.llmCall]) ∧
    Effect.llmCall ∈ (chatHandler ⟨some "elkey", none⟩ { okWorld with llm := .ok "[]" } msgBody).2 :=
  ⟨rfl, by decide⟩

/-! ### Branch selection lemmas -/

theorem chatTry_greeting (env : Env) (w : World) (body : Json) (um : Option Json)
    (hm : jsGetField body "message" = .ok um) (hfal : jsTruthyOpt um = false) :
    chatTry env w body = greetingResponse w := by
  unfold chatTry
  rw [hm]
  simp [hfal]

theorem chatTry_api (env : Env) (w : World) (body : Json) (um : Json)
    (hm : jsGetField body "message" = .ok (some um)) (ht : jsTruthy um = true)
    (hconf : misconfigured env = true) :
    chatTry env w body = apiKeysResponse w := by
  unfold chatTry
  rw [hm]
  simp [jsTruthyOpt, ht, hconf]

theorem chatTry_normal (env : Env) (w : World) (body : Json) (um : Json)
    (hm : jsGetField body "message" = .ok (some um)) (ht : jsTruthy um = true)
    (hconf : misconfigured env = false) :
    chatTry env w body = normalResponse w := by
  unfold chatTry
  rw [hm]
  simp [jsTruthyOpt, ht, hconf]

/-- C3: on the model-driven branch, when the model response after fence
stripping is not valid JSON, `JSON.parse` throws before any fragment
exists; the outer catch turns this into a status-500 response whose
body has `error` and `details` fields, and no fragment list is sent. -/
theorem c3_parse_failure_is_request_failure (env : Env) (w : World) (body : Json)
    (um : Json) (t : String)
    (hm : jsGetField body "message" = .ok (some um))
    (ht : jsTruthy um = true)
    (hconf : misconfigured env = false)
    (hllm : w.llm = .ok t)
    (hparse : parseJsonChars (stripFences t) = none) :
    chatHandler env w body =
      (.serverError (.obj [("error", .str "Failed to process message"),
                           ("details", .str jsonParseErrorMsg)]),
       [Effect.llmCall]) := by
  unfold chatHandler
  rw [chatTry_normal env w body um hm ht hconf]
  unfold normalResponse
  rw [hllm]
  simp only [hparse]

/-- Witness for `c3_parse_failure_is_request_failure`: a model response
that is not JSON at all. -/
theorem c3_parse_failure_is_request_failure_witness :
    chatHandler okEnv { okWorld with llm := .ok "nope" } msgBody =
      (.serverError (.obj [("error", .str "Failed to process message"),
                           ("details", .str jsonParseErrorMsg)]),
       [Effect.llmCall]) :=
  c3_parse_failure_is_request_failure okEnv { okWorld with llm := .ok "nope" } msgBody
    (.str "hi") "nope" rfl rfl rfl rfl rfl

/-- C9: when the parsed (and unwrapped) model response is the empty
fragment list, the request succeeds with `{messages: []}` and the whole
effect trace is the single language-model call: no synthesis, transcode,
viseme extraction or file read happens. -/
theorem c9_empty_messages (env : Env) (w : World) (body : Json)
    (um : Json) (t : String) (j : Json)
    (hm : jsGetField body "message" = .ok (some um))
    (ht : jsTruthy um = true)
    (hconf : misconfigured env = false)
    (hllm : w.llm = .ok t)
    (hparse : parseJsonChars (stripFences t) = some j)
    (hunwrap : unwrapMessages j = .ok (.arr [])) :
    chatHandler env w body = (.ok (.obj [("messages", .arr [])]), [Effect.llmCall]) := by
  unfold chatHandler
  rw [chatTry_normal env w body um hm ht hconf]
  unfold normalResponse
  rw [hllm]
  simp only [hparse, hunwrap]
  rfl

/-- Witness for `c9_empty_messages`, in both response shapes: the bare
empty array and the `{messages: []}` envelope. -/
theorem c9_empty_messages_witness :
    chatHandler okEnv { okWorld with llm := .ok "[]" } msgBody
      = (.ok (.obj [("messages", .arr [])]), [Effect.llmCall]) ∧
    chatHandler okEnv { okWorld with llm := .ok "\x7b\"messages\": []\x7d" } msgBody
      = (.ok (.obj [("messages", .arr [])]), [Effect.llmCall]) :=
  ⟨c9_empty_messages okEnv { okWorld with llm := .ok "[]" } msgBody
     (.str "hi") "[]" (.arr []) rfl rfl rfl rfl rfl rfl,
   c9_empty_messages okEnv { okWorld with llm := .ok "\x7b\"messages\": []\x7d" } msgBody
     (.str "hi") "\x7b\"messages\": []\x7d" (.obj [("messages", .arr [])]) rfl rfl rfl rfl rfl rfl⟩

/-- C7: a request whose `message` is absent or otherwise falsy takes the
greeting branch: exactly the two fixed fragments (smile/Talking_1 then
sad/Crying) with audio and lipsync loaded from the `intro_0`/`intro_1`
asset files, for any other request content; the trace holds only the
four asset reads — the language model and the media pipeline are not
invoked. -/
theorem c7_greeting_branch (env : Env) (w : World) (body : Json) (um : Option Json)
    (a0bs : List Nat) (l0 : Json) (a1bs : List Nat) (l1 : Json)
    (hm : jsGetField body "message" = .ok um)
    (hfal : jsTruthyOpt um = false)
    (ha0 : w.readBin "audios/intro_0.wav" = .ok a0bs)
    (hl0 : readJsonTranscript w "audios/intro_0.json" = .ok l0)
    (ha1 : w.readBin "audios/intro_1.wav" = .ok a1bs)
    (hl1 : readJsonTranscript w "audios/intro_1.json" = .ok l1) :
    chatHandler env w body =
      (.ok (.obj [("messages",
        .arr [greetFrag0 (base64Str a0bs) l0, greetFrag1 (base64Str a1bs) l1])]),
       [.fileRead "audios/intro_0.wav", .fileRead "audios/intro_0.json",
        .fileRead "audios/intro_1.wav", .fileRead "audios/intro_1.json"]) := by
  unfold chatHandler
  rw [chatTry_greeting env w body um hm hfal]
  unfold greetingResponse audioFileToBase64
  rw [ha0, ha1]
  simp only [hl0, hl1]

/-- Witness for `c7_greeting_branch`: an empty request body. -/
theorem c7_greeting_branch_witness :
    chatHandler okEnv okWorld (.obj []) =
      (.ok (.obj [("messages",
        .arr [greetFrag0 "QUJD" (.obj [("mouthCues", .arr [])]),
              greetFrag1 "QUJD" (.obj [("mouthCues", .arr [])])])]),
       [.fileRead "audios/intro_0.wav", .fileRead "audios/intro_0.json",
        .fileRead "audios/intro_1.wav", .fileRead "audios/intro_1.json"]) :=
  c7_greeting_branch okEnv okWorld (.obj []) none
    [65, 66, 67] (.obj [("mouthCues", .arr [])])
    [65, 66, 67] (.obj [("mouthCues", .arr [])])
    rfl rfl rfl rfl rfl rfl

/-- C2 (amended): with a truthy message, the missing-credentials branch
fires exactly when the ElevenLabs key is absent or empty, or the Gemini
key is present and equal to the placeholder `"-"`; it returns exactly
the fixed angry/smile pair from the `api_0`/`api_1` assets, and the
trace holds only the four asset reads — the language model and the
media pipeline are not invoked.  (An entirely absent Gemini key does
not fire this branch: see `c2_counterexample`.) -/
theorem c2_amended_misconfigured (env : Env) (w : World) (body : Json) (um : Json)
    (a0bs : List Nat) (l0 : Json) (a1bs : List Nat) (l1 : Json)
    (hm : jsGetField body "message" = .ok (some um))
    (ht : jsTruthy um = true)
    (hconf : misconfigured env = true)
    (ha0 : w.readBin "audios/api_0.wav" = .ok a0bs)
    (hl0 : readJsonTranscript w "audios/api_0.json" = .ok l0)
    (ha1 : w.readBin "audios/api_1.wav" = .ok a1bs)
    (hl1 : readJsonTranscript w "audios/api_1.json" = .ok l1) :
    chatHandler env w body =
      (.ok (.obj [("messages",
        .arr [apiFrag0 (base64Str a0bs) l0, apiFrag1 (base64Str a1bs) l1])]),
       [.fileRead "audios/api_0.wav", .fileRead "audios/api_0.json",
        .fileRead "audios/api_1.wav", .fileRead "audios/api_1.json"]) := by
  unfold chatHandler
  rw [chatTry_api env w body um hm ht hconf]
  unfold apiKeysResponse audioFileToBase64
  rw [ha0, ha1]
  simp only [hl0, hl1]

/-- Witness for `c2_amended_misconfigured`: ElevenLabs key absent. -/
theorem c2_amended_misconfigured_witness :
    chatHandler ⟨none, some "gmkey"⟩ okWorld msgBody =
      (.ok (.obj [("messages",
        .arr [apiFrag0 "QUJD" (.obj [("mouthCues", .arr [])]),
              apiFrag1 "QUJD" (.obj [("mouthCues", .arr [])])])]),
       [.fileRead "audios/api_0.wav", .fileRead "audios/api_0.json",
        .fileRead "audios/api_1.wav", .fileRead "audios/api_1.json"]) :=
  c2_amended_misconfigured ⟨none, some "gmkey"⟩ okWorld msgBody (.str "hi")
    [65, 66, 67] (.obj [("mouthCues", .arr [])])
    [65, 66, 67] (.obj [("mouthCues", .arr [])])
    rfl rfl rfl rfl rfl rfl rfl

/-! ### The handler result does not depend on the llm field outside the
model call itself -/

theorem processMessage_llm_irrel (w : World) (x : Except String String) (i : Nat) (m : Json) :
    processMessage { w with llm := x } i m = processMessage w i m := rfl

theorem processLoop_llm_irrel (w : World) (x : Except String String) :
    ∀ (xs : List Json) (i : Nat),
      processLoop { w with llm := x } i xs = processLoop w i xs := by
  intro xs
  induction xs with
  | nil => intro i; rfl
  | cons m rest ih =>
    intro i
    unfold processLoop
    rw [processMessage_llm_irrel, ih]

theorem unwrapMessages_arr (L : List Json) :
    unwrapMessages (.arr L) = .ok (.arr L) := rfl

theorem unwrapMessages_obj_arr (L : List Json) :
    unwrapMessages (.obj [("messages", .arr L)]) = .ok (.arr L) := rfl

/-- C5: a model response that parses to a bare fragment array and one
that parses to the `{messages: [...]}` envelope around the same array
produce identical handler results (same response body, same pipeline
processing, same effect trace). -/
theorem c5_bare_array_equals_wrapped (env : Env) (w : World) (body : Json)
    (t1 t2 : String) (L : List Json)
    (h1 : parseJsonChars (stripFences t1) = some (.arr L))
    (h2 : parseJsonChars (stripFences t2) = some (.obj [("messages", .arr L)])) :
    chatHandler env { w with llm := .ok t1 } body
      = chatHandler env { w with llm := .ok t2 } body := by
  have hn : normalResponse { w with llm := .ok t1 } = normalResponse { w with llm := .ok t2 } := by
    unfold normalResponse
    simp only [h1, h2, unwrapMessages_arr, unwrapMessages_obj_arr]
    rw [processLoop_llm_irrel w (.ok t1), processLoop_llm_irrel w (.ok t2)]
  unfold chatHandler chatTry
  cases hm : jsGetField body "message" with
  | error e => rfl
  | ok um =>
    by_cases hb : jsTruthyOpt um = false
    · simp only [hb]
      rfl
    · have hb' : jsTruthyOpt um = true := by
        revert hb
        cases jsTruthyOpt um <;> simp
      simp only [hb', Bool.true_eq_false, if_false]
      by_cases hc : misconfigured env = true
      · simp only [hc]
        rfl
      · have hc' : misconfigured env = false := by
          revert hc
          cases misconfigured env <;> simp
        simp only [hc', Bool.false_eq_true, if_false]
        rw [hn]

/-- Witness for `c5_bare_array_equals_wrapped`: `"[]"` versus
`"{messages: []}"` (as JSON text). -/
theorem c5_bare_array_equals_wrapped_witness :
    chatHandler okEnv { okWorld with llm := .ok "[]" } msgBody
      = chatHandler okEnv { okWorld with llm := .ok "\x7b\"messages\": []\x7d" } msgBody :=
  c5_bare_array_equals_wrapped okEnv okWorld msgBody "[]" "\x7b\"messages\": []\x7d" [] rfl rfl

/-! ### Field update and pipeline lemmas -/

theorem lookupField_set_same (fs : List (String × Json)) (k : String) (v : Json) :
    lookupField (setObjField fs k v) k = some v := by
  induction fs with
  | nil => simp [setObjField, lookupField]
  | cons p fs ih =>
    obtain ⟨k', v'⟩ := p
    by_cases h : k' = k
    · simp [setObjField, lookupField, h]
    · simp [setObjField, lookupField, h, ih]

theorem lookupField_set_ne (fs : List (String × Json)) (k : String) (v : Json)
    (k' : String) (h : k' ≠ k) :
    lookupField (setObjField fs k v) k' = lookupField fs k' := by
  induction fs with
  | nil =>
    have hkk : ¬k = k' := fun hh => h hh.symm
    simp [setObjField, lookupField, hkk]
  | cons p fs ih =>
    obtain ⟨k0, v0⟩ := p
    by_cases h0 : k0 = k
    · subst h0
      have hkk : ¬k0 = k' := fun hh => h hh.symm
      simp [setObjField, lookupField, hkk]
    · simp only [setObjField, h0, if_false, lookupField]
      by_cases h1 : k0 = k'
      · simp [h1]
      · simp [h1, ih]

theorem execCommand_eq (cmd : String) (r : ProcResult) :
    execCommand cmd r =
      if r.exitCode = 0 then .ok r.stdout
      else .error ⟨r.exitCode, "Command failed: " ++ cmd ++ "\n" ++ r.stderr⟩ := by
  unfold execCommand callbackSettles execErrorOf
  by_cases h : r.exitCode = 0 <;> simp [h]

theorem processMessage_non_string_text (w : World) (i : Nat) (m : Json)
    (tOpt : Option Json)
    (hm : jsGetField m "text" = .ok tOpt)
    (hbad : ∀ s, tOpt ≠ some (.str s)) :
    processMessage w i m = .ok (m, []) := by
  unfold processMessage
  rw [hm]
  cases tOpt with
  | none => rfl
  | some v =>
    cases v <;> try rfl
    exact absurd rfl (hbad _)

theorem processMessage_ok (w : World) (i : Nat) (m : Json) (h : m ≠ Json.null) :
    ∃ p, processMessage w i m = .ok p := by
  cases m with
  | null => exact absurd rfl h
  | bool b => exact ⟨_, rfl⟩
  | num a e => exact ⟨_, rfl⟩
  | str s => exact ⟨_, rfl⟩
  | arr xs => exact ⟨_, rfl⟩
  | obj fs =>
    unfold processMessage
    simp only [jsGetField]
    cases hlk : lookupField fs "text" with
    | none => exact ⟨_, rfl⟩
    | some v =>
      cases v with
      | str t => exact ⟨_, rfl⟩
      | null => exact ⟨_, rfl⟩
      | bool b => exact ⟨_, rfl⟩
      | num a e => exact ⟨_, rfl⟩
      | arr xs => exact ⟨_, rfl⟩
      | obj gs => exact ⟨_, rfl⟩

theorem processLoop_ok (w : World) :
    ∀ (xs : List Json) (i : Nat), (∀ m ∈ xs, m ≠ Json.null) →
      ∃ p, processLoop w i xs = .ok p := by
  intro xs
  induction xs with
  | nil => intro i _; exact ⟨([], []), rfl⟩
  | cons m rest ih =>
    intro i h
    obtain ⟨⟨m', tr⟩, hpm⟩ := processMessage_ok w i m (h m (List.mem_cons_self m rest))
    obtain ⟨⟨rest', tr'⟩, hpl⟩ := ih (i + 1) (fun x hx => h x (List.mem_cons_of_mem m hx))
    refine ⟨(m' :: rest', tr ++ tr'), ?_⟩
    unfold processLoop
    rw [hpm, hpl]

theorem processLoop_spec (w : World) :
    ∀ (xs : List Json) (i : Nat) (ys : List Json) (tr : List Effect),
      processLoop w i xs = .ok (ys, tr) →
      ys.length = xs.length ∧
      ∀ k (hk : k < xs.length) (hk2 : k < ys.length),
        ∃ trk, processMessage w (i + k) (xs.get ⟨k, hk⟩) = .ok (ys.get ⟨k, hk2⟩, trk) := by
  intro xs
  induction xs with
  | nil =>
    intro i ys tr h
    unfold processLoop at h
    injection h with hp
    injection hp with hy ht
    subst hy
    exact ⟨rfl, fun k hk _ => absurd hk (Nat.not_lt_zero k)⟩
  | cons m rest ih =>
    intro i ys tr h
    unfold processLoop at h
    cases hpm : processMessage w i m with
    | error e =>
      rw [hpm] at h
      exact Except.noConfusion h
    | ok p =>
      obtain ⟨m', tr0⟩ := p
      rw [hpm] at h
      cases hpl : processLoop w (i + 1) rest with
      | error q =>
        obtain ⟨e, tr'⟩ := q
        rw [hpl] at h
        exact Except.noConfusion h
      | ok q =>
        obtain ⟨rest', tr'⟩ := q
        rw [hpl] at h
        injection h with hp2
        injection hp2 with hy ht
        subst hy
        obtain ⟨ihlen, ihcor⟩ := ih (i + 1) rest' tr' hpl
        refine ⟨by simp [ihlen], ?_⟩
        intro k hk hk2
        cases k with
        | zero =>
          refine ⟨tr0, ?_⟩
          simpa using hpm
        | succ k' =>
          have hk' : k' < rest.length := Nat.lt_of_succ_lt_succ (by simpa using hk)
          have hk2' : k' < rest'.length := Nat.lt_of_succ_lt_succ (by simpa using hk2)
          obtain ⟨trk, htrk⟩ := ihcor k' hk' hk2'
          refine ⟨trk, ?_⟩
          have hidx : i + (k' + 1) = (i + 1) + k' := by omega
          rw [hidx]
          exact htrk

theorem lipSync_ffmpeg_fail (w : World) (i : Nat)
    (h : (w.proc (ffmpegCmd i)).exitCode ≠ 0) :
    lipSyncMessage w i =
      .error ("Command failed: " ++ ffmpegCmd i ++ "\n" ++ (w.proc (ffmpegCmd i)).stderr,
              [.execCmd (ffmpegCmd i)]) := by
  unfold lipSyncMessage
  rw [execCommand_eq]
  simp [h]

theorem lipSync_rhubarb_fail (w : World) (i : Nat)
    (h0 : (w.proc (ffmpegCmd i)).exitCode = 0)
    (h : (w.proc (rhubarbCmd i)).exitCode ≠ 0) :
    lipSyncMessage w i =
      .error ("Command failed: " ++ rhubarbCmd i ++ "\n" ++ (w.proc (rhubarbCmd i)).stderr,
              [.execCmd (ffmpegCmd i), .execCmd (rhubarbCmd i)]) := by
  unfold lipSyncMessage
  rw [execCommand_eq, execCommand_eq]
  simp [h0, h]

theorem lipSync_ok (w : World) (i : Nat)
    (h0 : (w.proc (ffmpegCmd i)).exitCode = 0)
    (h1 : (w.proc (rhubarbCmd i)).exitCode = 0) :
    lipSyncMessage w i = .ok ((), [.execCmd (ffmpegCmd i), .execCmd (rhubarbCmd i)]) := by
  unfold lipSyncMessage
  rw [execCommand_eq, execCommand_eq]
  simp [h0, h1]

/-- C1 (amended): when the media pipeline of a fragment raises at any
step, the fragment is still emitted with its `text`, `facialExpression`
and `animation` untouched and with `lipsync` absent; `audio` is absent
too, unless the raise happened in the final transcript read/parse step
(`readJsonTranscript`), which runs after `message.audio` was assigned —
in that one case the fragment carries `audio` (the base64 of the read
bytes) without `lipsync`.  The unamended both-or-neither claim fails on
exactly that last case: see `c1_counterexample`. -/
theorem c1_amended_degradation (w : World) (i : Nat) (fs : List (String × Json)) (t : String)
    (htext : lookupField fs "text" = some (.str t))
    (hnoa : lookupField fs "audio" = none)
    (hnol : lookupField fs "lipsync" = none)
    (hfail : pipelineFails w i t = true) :
    ∃ m' tr, processMessage w i (.obj fs) = .ok (m', tr) ∧
      jsGetField m' "text" = .ok (some (.str t)) ∧
      jsGetField m' "facialExpression" = jsGetField (.obj fs) "facialExpression" ∧
      jsGetField m' "animation" = jsGetField (.obj fs) "animation" ∧
      jsGetField m' "lipsync" = .ok none ∧
      (jsGetField m' "audio" = .ok none ∨
        (∃ bs, w.readBin (mp3Path i) = .ok bs ∧
           jsGetField m' "audio" = .ok (some (.str (base64Str bs))) ∧
           isThrown (readJsonTranscript w (jsonPath i)) = true)) := by
  have hpm : processMessage w i (.obj fs) = .ok (runPipeline w i (.obj fs) t) := by
    unfold processMessage
    simp only [jsGetField, htext]
  cases htts : w.tts (mp3Path i) t with
  | error e =>
    refine ⟨.obj fs, [Effect.ttsCall (mp3Path i) t], ?_, ?_, rfl, rfl, ?_, Or.inl ?_⟩
    · rw [hpm]
      unfold runPipeline
      rw [htts]
    · simp [jsGetField, htext]
    · simp [jsGetField, hnol]
    · simp [jsGetField, hnoa]
  | ok u =>
    by_cases hfc : (w.proc (ffmpegCmd i)).exitCode = 0
    · by_cases hrc : (w.proc (rhubarbCmd i)).exitCode = 0
      · have hls := lipSync_ok w i hfc hrc
        cases hbin : w.readBin (mp3Path i) with
        | error e =>
          have hb64 : audioFileToBase64 w (mp3Path i) = .error e := by
            unfold audioFileToBase64
            rw [hbin]
          refine ⟨.obj fs,
            [Effect.ttsCall (mp3Path i) t, .execCmd (ffmpegCmd i), .execCmd (rhubarbCmd i),
             .fileRead (mp3Path i)], ?_, ?_, rfl, rfl, ?_, Or.inl ?_⟩
          · rw [hpm]
            unfold runPipeline
            rw [htts, hls, hb64]
            rfl
          · simp [jsGetField, htext]
          · simp [jsGetField, hnol]
          · simp [jsGetField, hnoa]
        | ok bs =>
          have hb64 : audioFileToBase64 w (mp3Path i) = .ok (base64Str bs) := by
            unfold audioFileToBase64
            rw [hbin]
          cases htr : readJsonTranscript w (jsonPath i) with
          | error e =>
            refine ⟨jsSetField (.obj fs) "audio" (.str (base64Str bs)),
              [Effect.ttsCall (mp3Path i) t, .execCmd (ffmpegCmd i), .execCmd (rhubarbCmd i),
               .fileRead (mp3Path i), .fileRead (jsonPath i)],
              ?_, ?_, ?_, ?_, ?_, Or.inr ⟨bs, rfl, ?_, ?_⟩⟩
            · rw [hpm]
              unfold runPipeline
              rw [htts, hls, hb64, htr]
              rfl
            · simp [jsGetField, jsSetField,
                lookupField_set_ne fs "audio" (Json.str (base64Str bs)) "text" (by decide), htext]
            · simp [jsGetField, jsSetField,
                lookupField_set_ne fs "audio" (Json.str (base64Str bs)) "facialExpression" (by decide)]
            · simp [jsGetField, jsSetField,
                lookupField_set_ne fs "audio" (Json.str (base64Str bs)) "animation" (by decide)]
            · simp [jsGetField, jsSetField,
                lookupField_set_ne fs "audio" (Json.str (base64Str bs)) "lipsync" (by decide), hnol]
            · simp [jsGetField, jsSetField, lookupField_set_same]
            · rfl
          | ok l =>
            exfalso
            unfold pipelineFails at hfail
            rw [htts, hbin, htr] at hfail
            simp [isThrown, hfc, hrc] at hfail
      · have hls := lipSync_rhubarb_fail w i hfc hrc
        refine ⟨.obj fs,
          [Effect.ttsCall (mp3Path i) t, .execCmd (ffmpegCmd i), .execCmd (rhubarbCmd i)],
          ?_, ?_, rfl, rfl, ?_, Or.inl ?_⟩
        · rw [hpm]
          unfold runPipeline
          rw [htts, hls]
          rfl
        · simp [jsGetField, htext]
        · simp [jsGetField, hnol]
        · simp [jsGetField, hnoa]
    · have hls := lipSync_ffmpeg_fail w i hfc
      refine ⟨.obj fs, [Effect.ttsCall (mp3Path i) t, .execCmd (ffmpegCmd i)],
        ?_, ?_, rfl, rfl, ?_, Or.inl ?_⟩
      · rw [hpm]
        unfold runPipeline
        rw [htts, hls]
        rfl
      · simp [jsGetField, htext]
      · simp [jsGetField, hnol]
      · simp [jsGetField, hnoa]

/-- Witness for `c1_amended_degradation` in `c1World`: the transcript
step fails after the audio was attached. -/
theorem c1_amended_degradation_witness :
    ∃ m' tr, processMessage c1World 0
        (.obj [("text", .str "hi"), ("facialExpression", .str "smile"),
               ("animation", .str "Idle")]) = .ok (m', tr) ∧
      jsGetField m' "text" = .ok (some (.str "hi")) ∧
      jsGetField m' "facialExpression" =
        jsGetField (.obj [("text", .str "hi"), ("facialExpression", .str "smile"),
                          ("animation", .str "Idle")]) "facialExpression" ∧
      jsGetField m' "animation" =
        jsGetField (.obj [("text", .str "hi"), ("facialExpression", .str "smile"),
                          ("animation", .str "Idle")]) "animation" ∧
      jsGetField m' "lipsync" = .ok none ∧
      (jsGetField m' "audio" = .ok none ∨
        (∃ bs, c1World.readBin (mp3Path 0) = .ok bs ∧
           jsGetField m' "audio" = .ok (some (.str (base64Str bs))) ∧
           isThrown (readJsonTranscript c1World (jsonPath 0)) = true)) :=
  c1_amended_degradation c1World 0
    [("text", .str "hi"), ("facialExpression", .str "smile"), ("animation", .str "Idle")]
    "hi" rfl rfl rfl (by decide)

/-- A world whose model returns one fragment whose `text` is the number
5 rather than a string. -/
def c10World : World :=
  { okWorld with llm := .ok "[\x7b\"text\": 5\x7d]" }

/-- C10: on the model-driven branch, a fragment whose `text` field is
not a string (absent, or of another type) makes `textInput.substring`
throw inside the per-fragment `try`; the catch swallows it, the
fragment is emitted unchanged (so without `audio`/`lipsync`), the other
fragments are still processed in order, and the request as a whole
still succeeds with a 200 response. -/
theorem c10_non_string_text_degrades (env : Env) (w : World) (body : Json)
    (um : Json) (t : String) (j : Json) (L : List Json) (k : Nat)
    (hm : jsGetField body "message" = .ok (some um))
    (ht : jsTruthy um = true)
    (hconf : misconfigured env = false)
    (hllm : w.llm = .ok t)
    (hparse : parseJsonChars (stripFences t) = some j)
    (hunwrap : unwrapMessages j = .ok (.arr L))
    (hnonull : ∀ m ∈ L, m ≠ Json.null)
    (hk : k < L.length)
    (tOpt : Option Json)
    (htext : jsGetField (L.get ⟨k, hk⟩) "text" = .ok tOpt)
    (hbad : ∀ s, tOpt ≠ some (.str s))
    (hnoa : jsGetField (L.get ⟨k, hk⟩) "audio" = .ok none)
    (hnol : jsGetField (L.get ⟨k, hk⟩) "lipsync" = .ok none) :
    ∃ (M : List Json) (tr : List Effect),
      chatHandler env w body = (.ok (.obj [("messages", .arr M)]), Effect.llmCall :: tr) ∧
      M.length = L.length ∧
      (∀ hk2 : k < M.length,
        M.get ⟨k, hk2⟩ = L.get ⟨k, hk⟩ ∧
        jsGetField (M.get ⟨k, hk2⟩) "audio" = .ok none ∧
        jsGetField (M.get ⟨k, hk2⟩) "lipsync" = .ok none) ∧
      (∀ i (hi : i < L.length) (hi2 : i < M.length),
        ∃ tri, processMessage w i (L.get ⟨i, hi⟩) = .ok (M.get ⟨i, hi2⟩, tri)) := by
  obtain ⟨⟨ys, trl⟩, hpl⟩ := processLoop_ok w L 0 hnonull
  obtain ⟨hlen, hcor⟩ := processLoop_spec w L 0 ys trl hpl
  refine ⟨ys, trl, ?_, hlen, ?_, ?_⟩
  · unfold chatHandler
    rw [chatTry_normal env w body um hm ht hconf]
    unfold normalResponse
    rw [hllm]
    simp only [hparse, hunwrap, hpl]
  · intro hk2
    obtain ⟨trk, htrk⟩ := hcor k hk hk2
    rw [Nat.zero_add] at htrk
    have hbadeq := processMessage_non_string_text w k (L.get ⟨k, hk⟩) tOpt htext hbad
    rw [hbadeq] at htrk
    injection htrk with hp
    injection hp with h1 h2
    refine ⟨h1.symm, ?_, ?_⟩
    · rw [← h1]
      exact hnoa
    · rw [← h1]
      exact hnol
  · intro i hi hi2
    obtain ⟨tri, htri⟩ := hcor i hi hi2
    rw [Nat.zero_add] at htri
    exact ⟨tri, htri⟩

/-- Witness for `c10_non_string_text_degrades` in `c10World`. -/
theorem c10_non_string_text_degrades_witness :
    ∃ (M : List Json) (tr : List Effect),
      chatHandler okEnv c10World msgBody = (.ok (.obj [("messages", .arr M)]), Effect.llmCall :: tr) ∧
      M.length = [Json.obj [("text", .num 5 0)]].length ∧
      (∀ hk2 : 0 < M.length,
        M.get ⟨0, hk2⟩ = [Json.obj [("text", .num 5 0)]].get ⟨0, by decide⟩ ∧
        jsGetField (M.get ⟨0, hk2⟩) "audio" = .ok none ∧
        jsGetField (M.get ⟨0, hk2⟩) "lipsync" = .ok none) ∧
      (∀ i (hi : i < [Json.obj [("text", .num 5 0)]].length) (hi2 : i < M.length),
        ∃ tri, processMessage c10World i ([Json.obj [("text", .num 5 0)]].get ⟨i, hi⟩)
          = .ok (M.get ⟨i, hi2⟩, tri)) :=
  c10_non_string_text_degrades okEnv c10World msgBody (.str "hi") "[\x7b\"text\": 5\x7d]"
    (.arr [Json.obj [("text", .num 5 0)]]) [Json.obj [("text", .num 5 0)]] 0
    rfl rfl rfl rfl rfl rfl
    (by
      intro m hm'
      rw [List.mem_singleton] at hm'
      subst hm'
      intro hcon
      exact Json.noConfusion hcon)
    (by decide)
    (some (.num 5 0)) rfl
    (by
      intro s hcon
      injection hcon with hcon'
      exact Json.noConfusion hcon')
    rfl rfl

/-- C6: whenever the handler answers with a 200 response, its body is
exactly the `{messages: [...]}` envelope around the fragment list of the
selected branch, in order: for the greeting and missing-credentials
branches the output list is the branch list itself, and for the
model-driven branch the output has the same length as the parsed list
and its `k`-th element is the media-pipeline result of the `k`-th parsed
fragment — no reordering, insertion or removal. -/
theorem c6_order_preserved (env : Env) (w : World) (body : Json) (b : Json)
    (tr : List Effect) (L : List Json)
    (h : chatHandler env w body = (.ok b, tr))
    (hL : branchList env w body = some L) :
    ∃ ys : List Json, b = .obj [("messages", .arr ys)] ∧ ys.length = L.length ∧
      (ys = L ∨ ∀ k (hk : k < L.length) (hk2 : k < ys.length),
        ∃ trk, processMessage w k (L.get ⟨k, hk⟩) = .ok (ys.get ⟨k, hk2⟩, trk)) := by
  unfold chatHandler chatTry at h
  unfold branchList at hL
  cases hm : jsGetField body "message" with
  | error e =>
    simp only [hm] at hL
    exact Option.noConfusion hL
  | ok um =>
    simp only [hm] at h hL
    by_cases hfal : jsTruthyOpt um = false
    · rw [if_pos hfal] at h hL
      unfold greetingResponse at h
      cases ha0 : audioFileToBase64 w "audios/intro_0.wav" with
      | error e =>
        simp only [ha0] at hL
        exact Option.noConfusion hL
      | ok a0 =>
        cases hl0 : readJsonTranscript w "audios/intro_0.json" with
        | error e =>
          simp only [ha0, hl0] at hL
          exact Option.noConfusion hL
        | ok l0 =>
          cases ha1 : audioFileToBase64 w "audios/intro_1.wav" with
          | error e =>
            simp only [ha0, hl0, ha1] at hL
            exact Option.noConfusion hL
          | ok a1 =>
            cases hl1 : readJsonTranscript w "audios/intro_1.json" with
            | error e =>
              simp only [ha0, hl0, ha1, hl1] at hL
              exact Option.noConfusion hL
            | ok l1 =>
              simp only [ha0, hl0, ha1, hl1] at h hL
              injection hL with hL'
              subst hL'
              injection h with h1 h2
              injection h1 with h1'
              exact ⟨[greetFrag0 a0 l0, greetFrag1 a1 l1], h1'.symm, rfl, Or.inl rfl⟩
    · rw [if_neg hfal] at h hL
      by_cases hcfg : misconfigured env = true
      · rw [if_pos hcfg] at h hL
        unfold apiKeysResponse at h
        cases ha0 : audioFileToBase64 w "audios/api_0.wav" with
        | error e =>
          simp only [ha0] at hL
          exact Option.noConfusion hL
        | ok a0 =>
          cases hl0 : readJsonTranscript w "audios/api_0.json" with
          | error e =>
            simp only [ha0, hl0] at hL
            exact Option.noConfusion hL
          | ok l0 =>
            cases ha1 : audioFileToBase64 w "audios/api_1.wav" with
            | error e =>
              simp only [ha0, hl0, ha1] at hL
              exact Option.noConfusion hL
            | ok a1 =>
              cases hl1 : readJsonTranscript w "audios/api_1.json" with
              | error e =>
                simp only [ha0, hl0, ha1, hl1] at hL
                exact Option.noConfusion hL
              | ok l1 =>
                simp only [ha0, hl0, ha1, hl1] at h hL
                injection hL with hL'
                subst hL'
                injection h with h1 h2
                injection h1 with h1'
                exact ⟨[apiFrag0 a0 l0, apiFrag1 a1 l1], h1'.symm, rfl, Or.inl rfl⟩
      · rw [if_neg hcfg] at h hL
        unfold normalResponse at h
        cases hllm : w.llm with
        | error e =>
          simp only [hllm] at hL
          exact Option.noConfusion hL
        | ok t =>
          simp only [hllm] at h hL
          cases hp : parseJsonChars (stripFences t) with
          | none =>
            simp only [hp] at hL
            exact Option.noConfusion hL
          | some j =>
            simp only [hp] at h hL
            cases hu : unwrapMessages j with
            | error e =>
              simp only [hu] at hL
              exact Option.noConfusion hL
            | ok msgs =>
              cases msgs with
              | arr xs =>
                simp only [hu] at h hL
                injection hL with hL'
                subst hL'
                cases hploop : processLoop w 0 xs with
                | error p =>
                  obtain ⟨e2, tr2⟩ := p
                  simp only [hploop] at h
                  injection h with h1 h2
                  exact HttpResponse.noConfusion h1
                | ok p =>
                  obtain ⟨ys, tr2⟩ := p
                  simp only [hploop] at h
                  injection h with h1 h2
                  injection h1 with h1'
                  obtain ⟨hlen, hcor⟩ := processLoop_spec w xs 0 ys tr2 hploop
                  refine ⟨ys, h1'.symm, hlen, Or.inr ?_⟩
                  intro k hk hk2
                  obtain ⟨trk, htrk⟩ := hcor k hk hk2
                  rw [Nat.zero_add] at htrk
                  exact ⟨trk, htrk⟩
              | null =>
                simp only [hu] at hL
                exact Option.noConfusion hL
              | bool b2 =>
                simp only [hu] at hL
                exact Option.noConfusion hL
              | num n1 n2 =>
                simp only [hu] at hL
                exact Option.noConfusion hL
              | str s2 =>
                simp only [hu] at hL
                exact Option.noConfusion hL
              | obj fs2 =>
                simp only [hu] at hL
                exact Option.noConfusion hL

/-- Witness for `c6_order_preserved` on the greeting branch of
`okWorld`. -/
theorem c6_order_preserved_witness :
    ∃ ys : List Json,
      (Json.obj [("messages",
        .arr [greetFrag0 "QUJD" (.obj [("mouthCues", .arr [])]),
              greetFrag1 "QUJD" (.obj [("mouthCues", .arr [])])])])
        = .obj [("messages", .arr ys)] ∧
      ys.length = [greetFrag0 "QUJD" (.obj [("mouthCues", .arr [])]),
                   greetFrag1 "QUJD" (.obj [("mouthCues", .arr [])])].length ∧
      (ys = [greetFrag0 "QUJD" (.obj [("mouthCues", .arr [])]),
             greetFrag1 "QUJD" (.obj [("mouthCues", .arr [])])] ∨
       ∀ k (hk : k < [greetFrag0 "QUJD" (.obj [("mouthCues", .arr [])]),
                      greetFrag1 "QUJD" (.obj [("mouthCues", .arr [])])].length)
         (hk2 : k < ys.length),
         ∃ trk, processMessage okWorld k
             ([greetFrag0 "QUJD" (.obj [("mouthCues", .arr [])]),
               greetFrag1 "QUJD" (.obj [("mouthCues", .arr [])])].get ⟨k, hk⟩)
           = .ok (ys.get ⟨k, hk2⟩, trk)) :=
  c6_order_preserved okEnv okWorld (.obj [])
    (.obj [("messages",
      .arr [greetFrag0 "QUJD" (.obj [("mouthCues", .arr [])]),
            greetFrag1 "QUJD" (.obj [("mouthCues", .arr [])])])])
    [.fileRead "audios/intro_0.wav", .fileRead "audios/intro_0.json",
     .fileRead "audios/intro_1.wav", .fileRead "audios/intro_1.json"]
    [greetFrag0 "QUJD" (.obj [("mouthCues", .arr [])]),
     greetFrag1 "QUJD" (.obj [("mouthCues", .arr [])])]
    rfl rfl
